import Mathlib

/-!
Shallow embedding of the hook engine in `source/cpp/hooks/hooks.cpp`
(namespace `Hooks`: classes `HookEngine`, `Implementation`, `ObjcMethodHook`).

Modelling conventions:
* Machine addresses (`void*`, `IMP`) are `Nat`; the null pointer is `0`.
* The platform condition `#ifdef __APPLE__` is a boolean parameter `apple`.
* The Dobby backend (`DobbyHook` / `DobbyDestroy`) is an oracle `Backend`:
  `installOk t r` tells whether `DobbyHook` returns 0, `installOrig t r` is the
  original entry point it writes through the out pointer, `removeOk t` tells
  whether `DobbyDestroy` returns 0.
* The C++ functions return `bool`, and each failure exit is a distinct return
  site with its own distinct `std::cerr` diagnostic.  The embedding returns
  `Except HookError _` whose error constructor names the branch taken:
  `invalidArgument` for the null-address exits, `alreadyExists` for the
  duplicate-key exits, `notFound` for the missing-key exits, `backendFailure`
  for a rejected Dobby call, `platformUnsupported` for the non-Apple exits.
* `std::unordered_map<void*, void*> s_hookedFunctions` and
  `std::map<std::string, std::pair<Class, SEL>> s_hookedMethods` are
  association lists; the operations themselves keep keys unique.
* `std::lock_guard` acquisition/release and the backend invocations are
  recorded in an event trace `List Ev`, in program order: the guard acquires
  at its declaration and releases at scope exit (after the backend call).
-/

/-- Machine address (`void*` / `IMP`); `0` is the null pointer. -/
abbrev Addr := Nat

/-- Oracle for the Dobby backend used by `Hooks::Implementation`. -/
structure Backend where
  installOk : Addr → Addr → Bool
  installOrig : Addr → Addr → Addr
  removeOk : Addr → Bool

/-- Branch identity of each distinct failure exit in `hooks.cpp` (each exit
prints its own diagnostic to `std::cerr` before returning `false`). -/
inductive HookError
  | invalidArgument
  | alreadyExists
  | notFound
  | backendFailure
  | platformUnsupported
deriving DecidableEq, Repr

deriving instance DecidableEq for Except

/-- Lock / backend events emitted by `HookEngine` operations, in program
order. -/
inductive Ev
  | lockAcquire
  | lockRelease
  | backendInstall (target replacement : Addr)
  | backendRemove (target : Addr)
deriving DecidableEq, Repr

/-- The state `HookEngine::s_hookedFunctions : unordered_map<void*, void*>`
(target address → hook address). -/
structure HookState where
  hookedFunctions : List (Addr × Addr)
deriving DecidableEq, Repr

namespace Hooks

namespace Implementation

/-- `Hooks::Implementation::HookFunction(target, replacement, original)`:
on Apple with non-null target and replacement, calls `DobbyHook` and reports
whether it returned 0, the out pointer receiving the original entry point on
success; otherwise the fallback exit returns `false`. -/
def HookFunction (apple : Bool) (b : Backend) (target replacement : Addr) :
    Bool × Option Addr :=
  if apple ∧ target ≠ 0 ∧ replacement ≠ 0 then
    if b.installOk target replacement then
      (true, some (b.installOrig target replacement))
    else
      (false, none)
  else
    (false, none)

/-- `Hooks::Implementation::UnhookFunction(target)`: on Apple with non-null
target, calls `DobbyDestroy` and reports whether it returned 0; otherwise the
fallback exit returns `false`. -/
def UnhookFunction (apple : Bool) (b : Backend) (target : Addr) : Bool :=
  if apple ∧ target ≠ 0 then b.removeOk target else false

end Implementation

namespace HookEngine

/-- Result of `HookEngine::RegisterHook`: the branch taken (with the original
entry point written through `originalAddr` on success), the resulting
`s_hookedFunctions`, and the lock/backend event trace. -/
structure RegResult where
  res : Except HookError Addr
  st : HookState
  trace : List Ev
deriving Repr

/-- Result of `HookEngine::UnregisterHook`. -/
structure UnregResult where
  res : Except HookError Unit
  st : HookState
  trace : List Ev
deriving Repr

/-- `HookEngine::RegisterHook(targetAddr, hookAddr, originalAddr)`:
rejects null addresses before locking; under `s_hookMutex` rejects an
already-hooked target, otherwise calls `Implementation::HookFunction` (while
the `lock_guard` is still held) and inserts into `s_hookedFunctions` only on
backend success. -/
def RegisterHook (apple : Bool) (b : Backend) (st : HookState)
    (targetAddr hookAddr : Addr) : RegResult :=
  if targetAddr = 0 ∨ hookAddr = 0 then
    ⟨.error .invalidArgument, st, []⟩
  else if (st.hookedFunctions.lookup targetAddr).isSome then
    ⟨.error .alreadyExists, st, [.lockAcquire, .lockRelease]⟩
  else
    let call := Implementation.HookFunction apple b targetAddr hookAddr
    if call.1 then
      ⟨.ok (call.2.getD 0), ⟨(targetAddr, hookAddr) :: st.hookedFunctions⟩,
        [.lockAcquire, .backendInstall targetAddr hookAddr, .lockRelease]⟩
    else
      ⟨.error .backendFailure, st,
        [.lockAcquire, .backendInstall targetAddr hookAddr, .lockRelease]⟩

/-- `HookEngine::UnregisterHook(targetAddr)`: rejects a null address before
locking; under `s_hookMutex` fails if the target is untracked, otherwise calls
`Implementation::UnhookFunction` (while the `lock_guard` is still held) and
erases the entry only on backend success. -/
def UnregisterHook (apple : Bool) (b : Backend) (st : HookState)
    (targetAddr : Addr) : UnregResult :=
  if targetAddr = 0 then
    ⟨.error .invalidArgument, st, []⟩
  else if (st.hookedFunctions.lookup targetAddr).isNone then
    ⟨.error .notFound, st, [.lockAcquire, .lockRelease]⟩
  else if Implementation.UnhookFunction apple b targetAddr then
    ⟨.ok (), ⟨st.hookedFunctions.eraseP (fun p => p.1 == targetAddr)⟩,
      [.lockAcquire, .backendRemove targetAddr, .lockRelease]⟩
  else
    ⟨.error .backendFailure, st,
      [.lockAcquire, .backendRemove targetAddr, .lockRelease]⟩

/-- `HookEngine::ClearAllHooks()`: under `s_hookMutex`, calls
`Implementation::UnhookFunction` on every tracked target, ignoring each
result, then clears `s_hookedFunctions` entirely; returns `void` (no count).
The `apple`/`b` parameters feed the ignored backend calls. -/
def ClearAllHooks (apple : Bool) (b : Backend) (st : HookState) :
    HookState × List Ev :=
  (⟨[]⟩,
    [Ev.lockAcquire] ++ st.hookedFunctions.map (fun p => Ev.backendRemove p.1)
      ++ [Ev.lockRelease])

/-- `HookEngine::Initialize()` (renamed `InitEngine` here): clears any
existing hooks via `ClearAllHooks` and returns `true`. -/
def InitEngine (apple : Bool) (b : Backend) (st : HookState) :
    Bool × HookState × List Ev :=
  (true, (ClearAllHooks apple b st).1, (ClearAllHooks apple b st).2)

end HookEngine

namespace ObjcMethodHook

/-- Immutable facts about the Objective-C runtime: which class names
`objc_getClass` resolves and which (class, selector) pairs
`class_getInstanceMethod` resolves.  (`sel_registerName` never returns null
for a non-null C string, so its failure check in the source is dead and not
modelled as a separate branch.) -/
structure ObjcEnv where
  hasClass : String → Bool
  hasMethod : String → String → Bool

/-- Mutable Objective-C state: the current implementation of every method
slot (`method_getImplementation` / `method_setImplementation`), and the
tracking map `s_hookedMethods : map<string, pair<Class, SEL>>`, keyed by
`className ++ "::" ++ selectorName` and storing the resolved class and
selector (modelled by their names). -/
structure ObjcState where
  impls : String × String → Addr
  hookedMethods : List (String × (String × String))

/-- The key `className + "::" + selectorName` built by both
`HookMethod` and `UnhookMethod`. -/
def methodKey (className selectorName : String) : String :=
  className ++ "::" ++ selectorName

/-- Result of `ObjcMethodHook::HookMethod`: branch taken, resulting state,
and the value written through the `originalFn` out pointer (`none` when the
caller passed null or the write was not reached). -/
structure MethodHookResult where
  res : Except HookError Unit
  st : ObjcState
  written : Option Addr

/-- Result of `ObjcMethodHook::UnhookMethod`. -/
structure MethodUnhookResult where
  res : Except HookError Unit
  st : ObjcState

/-- `ObjcMethodHook::HookMethod(className, selectorName, replacementFn,
originalFn)`: on non-Apple, the `#else` exit fails; otherwise under
`s_methodMutex` it fails on an already-hooked key, an unresolvable class, or
an unresolvable method; else it reads the current implementation, writes it
through `originalFn` only when that pointer is non-null, replaces the
implementation with `replacementFn`, and records `(cls, selector)` in
`s_hookedMethods` — note the captured original implementation is NOT stored
in the map. -/
def HookMethod (apple : Bool) (env : ObjcEnv) (st : ObjcState)
    (className selectorName : String) (replacementFn : Addr)
    (originalFnProvided : Bool) : MethodHookResult :=
  if ¬apple then
    ⟨.error .platformUnsupported, st, none⟩
  else if (st.hookedMethods.lookup (methodKey className selectorName)).isSome then
    ⟨.error .alreadyExists, st, none⟩
  else if ¬env.hasClass className then
    ⟨.error .notFound, st, none⟩
  else if ¬env.hasMethod className selectorName then
    ⟨.error .notFound, st, none⟩
  else
    let originalImp := st.impls (className, selectorName)
    ⟨.ok (),
      ⟨fun p => if p = (className, selectorName) then replacementFn else st.impls p,
        (methodKey className selectorName, (className, selectorName))
          :: st.hookedMethods⟩,
      if originalFnProvided then some originalImp else none⟩

/-- `ObjcMethodHook::UnhookMethod(className, selectorName)`: on non-Apple,
the `#else` exit fails; otherwise under `s_methodMutex` it fails if the key
is untracked, and else erases the tracking entry and returns `true` — the
source comments that the original implementation was not stored, so the
method's implementation slot is left untouched (not restored). -/
def UnhookMethod (apple : Bool) (st : ObjcState)
    (className selectorName : String) : MethodUnhookResult :=
  if ¬apple then
    ⟨.error .platformUnsupported, st⟩
  else if (st.hookedMethods.lookup (methodKey className selectorName)).isNone then
    ⟨.error .notFound, st⟩
  else
    ⟨.ok (),
      ⟨st.impls,
        st.hookedMethods.eraseP
          (fun p => p.1 == methodKey className selectorName)⟩⟩

/-- `ObjcMethodHook::ClearAllHooks()`: on Apple, clears the tracking map only
(implementations are not restored); on non-Apple the body is compiled out. -/
def ClearAllHooks (apple : Bool) (st : ObjcState) : ObjcState :=
  if apple then ⟨st.impls, []⟩ else st

end ObjcMethodHook

end Hooks

namespace Hooks

/-! ## Concrete fixtures used by counterexamples and witnesses -/

/-- Objective-C environment with a single class `"A"` owning a single
instance method `"m"`. -/
def envA : ObjcMethodHook.ObjcEnv :=
  ⟨fun c => c == "A", fun c s => c == "A" && s == "m"⟩

/-- Objective-C state in which every method slot holds implementation `7`
and no method is tracked as hooked. -/
def stA7 : ObjcMethodHook.ObjcState := ⟨fun _ => 7, []⟩

/-- Same as `stA7` but every method slot holds implementation `9`. -/
def stA9 : ObjcMethodHook.ObjcState := ⟨fun _ => 9, []⟩

/-- Backend whose installs always succeed (original entry point `9`) and
whose removals always fail. -/
def failRemoveBackend : Backend :=
  ⟨fun _ _ => true, fun _ _ => 9, fun _ => false⟩

/-- Backend whose installs and removals always succeed, installs reporting
original entry point `9`. -/
def okBackend : Backend :=
  ⟨fun _ _ => true, fun _ _ => 9, fun _ => true⟩

/-! ## C1 / C2: method unhooking does not restore, the original
implementation is not stored -/

/-- C1: the claim says `Unhook(typeKey, memberKey)` restores the captured
original implementation exactly before removing the entry.  On the concrete
run below, `HookMethod` on class `"A"`, selector `"m"` captures original
implementation `7` and installs replacement `5`; `UnhookMethod` then reports
success and removes the tracking entry, but the method's implementation slot
still holds the replacement `5`, not the captured original `7` — the code
never restores it (its own comment says the original implementation is not
stored, so restoration is impossible). -/
theorem unhookMethod_not_restored :
    (ObjcMethodHook.HookMethod true envA stA7 "A" "m" 5 true).res = .ok () ∧
    (ObjcMethodHook.HookMethod true envA stA7 "A" "m" 5 true).written = some 7 ∧
    (ObjcMethodHook.UnhookMethod true
        (ObjcMethodHook.HookMethod true envA stA7 "A" "m" 5 true).st "A" "m").res
      = .ok () ∧
    ((ObjcMethodHook.UnhookMethod true
        (ObjcMethodHook.HookMethod true envA stA7 "A" "m" 5 true).st "A"
        "m").st.hookedMethods.lookup "A::m") = none ∧
    (ObjcMethodHook.UnhookMethod true
        (ObjcMethodHook.HookMethod true envA stA7 "A" "m" 5 true).st "A"
        "m").st.impls ("A", "m") = 5 ∧
    (5 : Addr) ≠ 7 := by
  decide

/-- C2: the claim says every recorded method-hook entry has its
`originalImplementation` field populated with the implementation captured
before the swap.  The map value type in the code is `(Class, SEL)` — it has
no such field: two hooks capturing different originals (`7` vs `9`, both
observable through the out pointer) record byte-identical registry entries,
so the captured original is discarded, not stored. -/
theorem hookMethod_discards_original :
    (ObjcMethodHook.HookMethod true envA stA7 "A" "m" 5 true).written = some 7 ∧
    (ObjcMethodHook.HookMethod true envA stA9 "A" "m" 5 true).written = some 9 ∧
    (ObjcMethodHook.HookMethod true envA stA7 "A" "m" 5 true).st.hookedMethods
      = (ObjcMethodHook.HookMethod true envA stA9 "A" "m" 5 true).st.hookedMethods ∧
    (ObjcMethodHook.HookMethod true envA stA7 "A" "m" 5 true).st.hookedMethods
      = [("A::m", ("A", "m"))] := by
  decide

/-! ## C3: ClearAllHooks is not best-effort-selective and returns no count -/

/-- C3 counterexample: the claim says an entry whose backend removal failed
remains tracked after `ClearAllHooks`.  With a backend whose removal of
target `3` fails, the tracked entry `(3, 5)` is nevertheless gone from the
registry (the map is cleared unconditionally), refuting the claim at this
input. -/
theorem clearAllHooks_removes_failed_entry :
    failRemoveBackend.removeOk 3 = false ∧
    ¬((HookEngine.ClearAllHooks true failRemoveBackend
        ⟨[(3, 5)]⟩).1.hookedFunctions.lookup 3 = some 5) ∧
    (HookEngine.ClearAllHooks true failRemoveBackend ⟨[(3, 5)]⟩).2
      = [Ev.lockAcquire, Ev.backendRemove 3, Ev.lockRelease] := by
  decide

/-- C3 (amended): `ClearAllHooks` attempts backend removal of every tracked
entry (the trace holds one `backendRemove` per entry, in order), ignores the
results, unconditionally clears the whole registry — entries whose backend
removal failed included — never raises, and returns no count (`void`). -/
theorem clearAllHooks_clears_unconditionally (apple : Bool) (b : Backend)
    (st : HookState) :
    (HookEngine.ClearAllHooks apple b st).1.hookedFunctions = [] ∧
    (HookEngine.ClearAllHooks apple b st).2
      = [Ev.lockAcquire]
          ++ st.hookedFunctions.map (fun p => Ev.backendRemove p.1)
          ++ [Ev.lockRelease] :=
  ⟨rfl, rfl⟩

end Hooks

namespace Hooks

/-- Backend whose installs always fail and whose removals always succeed. -/
def failInstallBackend : Backend :=
  ⟨fun _ _ => false, fun _ _ => 9, fun _ => true⟩

/-! ## C4: UnregisterHook removes only on backend success -/

/-- C4: for a non-null target, `UnregisterHook` fails `notFound` without
mutation when the target is untracked; when tracked it calls the backend
(`backendRemove` appears in the trace), erases the entry exactly when the
backend succeeded, and on backend failure reports `backendFailure` leaving
the registry — the tracked entry included — fully intact. -/
theorem unregisterHook_removes_only_on_backend_success (apple : Bool)
    (b : Backend) (st : HookState) (t : Addr) (ht : t ≠ 0) :
    (st.hookedFunctions.lookup t = none →
        (HookEngine.UnregisterHook apple b st t).res = .error .notFound ∧
        (HookEngine.UnregisterHook apple b st t).st = st) ∧
    (∀ h, st.hookedFunctions.lookup t = some h →
        Ev.backendRemove t ∈ (HookEngine.UnregisterHook apple b st t).trace ∧
        (Implementation.UnhookFunction apple b t = true →
          (HookEngine.UnregisterHook apple b st t).res = .ok () ∧
          (HookEngine.UnregisterHook apple b st t).st.hookedFunctions
            = st.hookedFunctions.eraseP (fun p => p.1 == t)) ∧
        (Implementation.UnhookFunction apple b t = false →
          (HookEngine.UnregisterHook apple b st t).res = .error .backendFailure ∧
          (HookEngine.UnregisterHook apple b st t).st = st)) := by
  refine ⟨fun hnone => ?_, fun h hs => ?_⟩
  · simp [HookEngine.UnregisterHook, ht, hnone]
  · by_cases hb : Implementation.UnhookFunction apple b t
    · simp [HookEngine.UnregisterHook, ht, hs, hb]
    · simp [HookEngine.UnregisterHook, ht, hs, hb]

/-- C4 witness: removing the tracked target `3` with an always-succeeding
backend succeeds and empties the registry; removing it with a backend whose
removal fails reports `backendFailure` and leaves the entry intact. -/
theorem unregisterHook_removes_only_on_backend_success_witness :
    ((HookEngine.UnregisterHook true okBackend ⟨[(3, 5)]⟩ 3).res = .ok () ∧
     (HookEngine.UnregisterHook true okBackend ⟨[(3, 5)]⟩ 3).st.hookedFunctions
       = []) ∧
    ((HookEngine.UnregisterHook true failRemoveBackend ⟨[(3, 5)]⟩ 3).res
       = .error .backendFailure ∧
     (HookEngine.UnregisterHook true failRemoveBackend ⟨[(3, 5)]⟩ 3).st
       = ⟨[(3, 5)]⟩) ∧
    ((HookEngine.UnregisterHook true okBackend ⟨[]⟩ 3).res
       = .error .notFound ∧
     (HookEngine.UnregisterHook true okBackend ⟨[]⟩ 3).st = ⟨[]⟩) := by
  have hok := ((unregisterHook_removes_only_on_backend_success true okBackend
    ⟨[(3, 5)]⟩ 3 (by decide)).2 5 (by decide)).2.1 (by decide)
  have hfail := ((unregisterHook_removes_only_on_backend_success true
    failRemoveBackend ⟨[(3, 5)]⟩ 3 (by decide)).2 5 (by decide)).2.2 (by decide)
  have hnf := (unregisterHook_removes_only_on_backend_success true okBackend
    ⟨[]⟩ 3 (by decide)).1 (by decide)
  exact ⟨⟨hok.1, hok.2.trans (by decide)⟩, hfail, hnf⟩

/-! ## C5: every failed RegisterHook leaves the registry unchanged -/

/-- C5: every failure exit of `RegisterHook` leaves `s_hookedFunctions`
unchanged: a null target or replacement fails `invalidArgument`; an
already-tracked target fails `alreadyExists` with the existing entry (and the
whole map) byte-identical; a backend failure reports `backendFailure` with no
partial insert. -/
theorem registerHook_failure_no_mutation (apple : Bool) (b : Backend)
    (st : HookState) (t r : Addr) :
    (∀ e, (HookEngine.RegisterHook apple b st t r).res = .error e →
        (HookEngine.RegisterHook apple b st t r).st = st) ∧
    (t = 0 ∨ r = 0 →
        (HookEngine.RegisterHook apple b st t r).res = .error .invalidArgument) ∧
    (t ≠ 0 → r ≠ 0 → (st.hookedFunctions.lookup t).isSome →
        (HookEngine.RegisterHook apple b st t r).res = .error .alreadyExists ∧
        (HookEngine.RegisterHook apple b st t r).st.hookedFunctions.lookup t
          = st.hookedFunctions.lookup t) ∧
    (t ≠ 0 → r ≠ 0 → st.hookedFunctions.lookup t = none →
        (Implementation.HookFunction apple b t r).1 = false →
        (HookEngine.RegisterHook apple b st t r).res = .error .backendFailure) := by
  refine ⟨fun e he => ?_, fun hz => ?_, fun ht hr hs => ?_, fun ht hr hn hb => ?_⟩
  · by_cases hz : t = 0 ∨ r = 0
    · simp [HookEngine.RegisterHook, hz]
    · by_cases hs : (st.hookedFunctions.lookup t).isSome
      · simp [HookEngine.RegisterHook, hz, hs]
      · by_cases hc : (Implementation.HookFunction apple b t r).1
        · simp [HookEngine.RegisterHook, hz, hs, hc] at he
        · simp [HookEngine.RegisterHook, hz, hs, hc]
  · simp [HookEngine.RegisterHook, hz]
  · have hz : ¬(t = 0 ∨ r = 0) := by simp [ht, hr]
    simp [HookEngine.RegisterHook, hz, hs]
  · have hz : ¬(t = 0 ∨ r = 0) := by simp [ht, hr]
    simp [HookEngine.RegisterHook, hz, hn, hb]

/-- C5 witness: a null-target call, a duplicate call on tracked target `3`,
and a backend-rejected call each fail with the stated branch and leave the
concrete registry `[(3, 5)]` (resp. `[]`) unchanged. -/
theorem registerHook_failure_no_mutation_witness :
    ((HookEngine.RegisterHook true okBackend ⟨[(3, 5)]⟩ 0 6).res
       = .error .invalidArgument ∧
     (HookEngine.RegisterHook true okBackend ⟨[(3, 5)]⟩ 0 6).st = ⟨[(3, 5)]⟩) ∧
    ((HookEngine.RegisterHook true okBackend ⟨[(3, 5)]⟩ 3 6).res
       = .error .alreadyExists ∧
     (HookEngine.RegisterHook true okBackend ⟨[(3, 5)]⟩ 3 6).st = ⟨[(3, 5)]⟩ ∧
     (HookEngine.RegisterHook true okBackend
        ⟨[(3, 5)]⟩ 3 6).st.hookedFunctions.lookup 3 = some 5) ∧
    ((HookEngine.RegisterHook true failInstallBackend ⟨[]⟩ 3 6).res
       = .error .backendFailure ∧
     (HookEngine.RegisterHook true failInstallBackend ⟨[]⟩ 3 6).st = ⟨[]⟩) := by
  have h1 := registerHook_failure_no_mutation true okBackend ⟨[(3, 5)]⟩ 0 6
  have h2 := registerHook_failure_no_mutation true okBackend ⟨[(3, 5)]⟩ 3 6
  have h3 := registerHook_failure_no_mutation true failInstallBackend ⟨[]⟩ 3 6
  have e1 := h1.2.1 (Or.inl rfl)
  have e2 := (h2.2.2.1 (by decide) (by decide) (by decide)).1
  have e3 := h3.2.2.2 (by decide) (by decide) (by decide) (by decide)
  refine ⟨⟨e1, h1.1 _ e1⟩, ⟨e2, h2.1 _ e2, ?_⟩, ⟨e3, h3.1 _ e3⟩⟩
  exact ((h2.2.2.1 (by decide) (by decide) (by decide)).2).trans (by decide)

end Hooks

namespace Hooks

/-! ## C6: registry size equals net successful installs -/

/-- Whether an embedded result took a success exit (the C++ `true` return). -/
def succeeded {α : Type} : Except HookError α → Bool
  | .ok _ => true
  | .error _ => false

/-- One call made to `HookEngine`: `reg t r` is `RegisterHook(t, r, &orig)`,
`unreg t` is `UnregisterHook(t)`. -/
inductive EngineOp
  | reg (target hookAddr : Addr)
  | unreg (target : Addr)
deriving DecidableEq, Repr

/-- The target address of an engine call. -/
def EngineOp.target : EngineOp → Addr
  | .reg t _ => t
  | .unreg t => t

/-- Run a sequence of engine calls, returning the final registry together
with the counts of successful `RegisterHook` and successful `UnregisterHook`
calls. -/
def runOps (apple : Bool) (b : Backend) : List EngineOp → HookState → HookState × Nat × Nat
  | [], st => (st, 0, 0)
  | EngineOp.reg t r :: rest, st =>
      let out := HookEngine.RegisterHook apple b st t r
      let next := runOps apple b rest out.st
      (next.1, (if succeeded out.res then 1 else 0) + next.2.1, next.2.2)
  | EngineOp.unreg t :: rest, st =>
      let out := HookEngine.UnregisterHook apple b st t
      let next := runOps apple b rest out.st
      (next.1, next.2.1, (if succeeded out.res then 1 else 0) + next.2.2)

/-- `List.lookup` on a cons cell, with a propositional key comparison. -/
theorem lookup_cons_unfold (t k v : Addr) (l : List (Addr × Addr)) :
    List.lookup t ((k, v) :: l) = if t = k then some v else List.lookup t l := by
  by_cases h : t = k
  · simp [List.lookup, h]
  · simp [List.lookup, h, beq_false_of_ne h]

/-- Erasing the entry found by a successful lookup shortens the list by
exactly one. -/
theorem eraseP_length_of_lookup_isSome {l : List (Addr × Addr)} {t : Addr}
    (h : (l.lookup t).isSome) :
    (l.eraseP (fun p => p.1 == t)).length + 1 = l.length := by
  induction l with
  | nil => simp [List.lookup] at h
  | cons a l ih =>
    obtain ⟨k, v⟩ := a
    by_cases hk : t = k
    · subst hk
      simp [List.eraseP_cons]
    · rw [lookup_cons_unfold, if_neg hk] at h
      simp [List.eraseP_cons, beq_false_of_ne (Ne.symm hk), ih h]

/-- A `RegisterHook` call grows the registry by one exactly when it
succeeds. -/
theorem registerHook_length (apple : Bool) (b : Backend) (st : HookState)
    (t r : Addr) :
    (HookEngine.RegisterHook apple b st t r).st.hookedFunctions.length
      = st.hookedFunctions.length
        + (if succeeded (HookEngine.RegisterHook apple b st t r).res then 1
           else 0) := by
  unfold HookEngine.RegisterHook
  split
  · simp [succeeded]
  · split
    · simp [succeeded]
    · by_cases hc : (Implementation.HookFunction apple b t r).1
      · simp [hc, succeeded]
      · simp [hc, succeeded]

/-- An `UnregisterHook` call shrinks the registry by one exactly when it
succeeds. -/
theorem unregisterHook_length (apple : Bool) (b : Backend) (st : HookState)
    (t : Addr) :
    (HookEngine.UnregisterHook apple b st t).st.hookedFunctions.length
      + (if succeeded (HookEngine.UnregisterHook apple b st t).res then 1
         else 0)
      = st.hookedFunctions.length := by
  unfold HookEngine.UnregisterHook
  split
  · simp [succeeded]
  · split
    · simp [succeeded]
    · next hz hn =>
      have hs : (st.hookedFunctions.lookup t).isSome := by
        cases hu : st.hookedFunctions.lookup t with
        | none => exact absurd (by simp [hu]) hn
        | some v => simp
      split
      · simpa [succeeded] using eraseP_length_of_lookup_isSome hs
      · simp [succeeded]

/-- Running any sequence of calls, the final length plus the successful
unregisters equals the initial length plus the successful registers. -/
theorem runOps_length (apple : Bool) (b : Backend) (ops : List EngineOp) :
    ∀ st : HookState,
      (runOps apple b ops st).1.hookedFunctions.length
          + (runOps apple b ops st).2.2
        = st.hookedFunctions.length + (runOps apple b ops st).2.1 := by
  induction ops with
  | nil => intro st; simp [runOps]
  | cons op rest ih =>
    intro st
    cases op with
    | reg t r =>
      have h1 := registerHook_length apple b st t r
      have h2 := ih (HookEngine.RegisterHook apple b st t r).st
      simp only [runOps]
      by_cases hsucc :
          succeeded (HookEngine.RegisterHook apple b st t r).res = true
      · rw [if_pos hsucc] at h1 ⊢; omega
      · rw [if_neg hsucc] at h1 ⊢; omega
    | unreg t =>
      have h1 := unregisterHook_length apple b st t
      have h2 := ih (HookEngine.UnregisterHook apple b st t).st
      simp only [runOps]
      by_cases hsucc :
          succeeded (HookEngine.UnregisterHook apple b st t).res = true
      · rw [if_pos hsucc] at h1 ⊢; omega
      · rw [if_neg hsucc] at h1 ⊢; omega

/-- C6: for any finite sequence of `RegisterHook` / `UnregisterHook` calls on
pairwise-distinct targets starting from the empty registry, the final number
of tracked entries equals the number of successful registers minus the number
of successful unregisters. -/
theorem runOps_net_installs (apple : Bool) (b : Backend) (ops : List EngineOp)
    (hdistinct : (ops.map EngineOp.target).Nodup) :
    (runOps apple b ops ⟨[]⟩).1.hookedFunctions.length
      = (runOps apple b ops ⟨[]⟩).2.1 - (runOps apple b ops ⟨[]⟩).2.2 := by
  have h := runOps_length apple b ops ⟨[]⟩
  simp only [List.length_nil] at h
  omega

/-- C6 witness: the sequence `RegisterHook(1, 2)`, `UnregisterHook(3)` on the
distinct targets `1` and `3` ends with one tracked entry, one successful
register and zero successful unregisters. -/
theorem runOps_net_installs_witness :
    ([EngineOp.reg 1 2, EngineOp.unreg 3].map EngineOp.target).Nodup ∧
    (runOps true okBackend [EngineOp.reg 1 2, EngineOp.unreg 3]
        ⟨[]⟩).1.hookedFunctions.length
      = (runOps true okBackend [EngineOp.reg 1 2, EngineOp.unreg 3] ⟨[]⟩).2.1
        - (runOps true okBackend [EngineOp.reg 1 2, EngineOp.unreg 3] ⟨[]⟩).2.2 :=
  ⟨by decide, runOps_net_installs true okBackend _ (by decide)⟩

end Hooks

namespace Hooks

/-! ## C7: unsupported platform -/

/-- C7: with the dynamic-dispatch runtime absent (`apple = false`, i.e. the
non-`__APPLE__` build), `HookMethod` and `UnhookMethod` both fail through
their platform-unsupported exit for every argument, and that error kind is
distinct from the other kinds such as `notFound`. -/
theorem method_hooks_platform_unsupported (env : ObjcMethodHook.ObjcEnv)
    (st : ObjcMethodHook.ObjcState) (c s : String) (repl : Addr)
    (prov : Bool) :
    (ObjcMethodHook.HookMethod false env st c s repl prov).res
        = .error .platformUnsupported ∧
    (ObjcMethodHook.UnhookMethod false st c s).res
        = .error .platformUnsupported ∧
    HookError.platformUnsupported ≠ HookError.notFound ∧
    HookError.platformUnsupported ≠ HookError.invalidArgument ∧
    HookError.platformUnsupported ≠ HookError.alreadyExists ∧
    HookError.platformUnsupported ≠ HookError.backendFailure :=
  ⟨rfl, rfl, by decide, by decide, by decide, by decide⟩

/-! ## C8: the registry lock is held across backend calls -/

/-- Computes whether every backend event in the trace happens while the lock
is NOT held, starting from `d` outstanding acquisitions. -/
def backendCallsUnlocked : Nat → List Ev → Bool
  | _, [] => true
  | d, Ev.lockAcquire :: rest => backendCallsUnlocked (d + 1) rest
  | d, Ev.lockRelease :: rest => backendCallsUnlocked (d - 1) rest
  | d, Ev.backendInstall _ _ :: rest => (d == 0) && backendCallsUnlocked d rest
  | d, Ev.backendRemove _ :: rest => (d == 0) && backendCallsUnlocked d rest

/-- Computes whether every backend event in the trace happens while the lock
IS held, starting from `d` outstanding acquisitions. -/
def backendCallsLocked : Nat → List Ev → Bool
  | _, [] => true
  | d, Ev.lockAcquire :: rest => backendCallsLocked (d + 1) rest
  | d, Ev.lockRelease :: rest => backendCallsLocked (d - 1) rest
  | d, Ev.backendInstall _ _ :: rest => (d != 0) && backendCallsLocked d rest
  | d, Ev.backendRemove _ :: rest => (d != 0) && backendCallsLocked d rest

/-- C8 counterexample: the claim says the registry lock is released before
the backend install call is invoked.  On the concrete successful
`RegisterHook(3, 5)` run below, the backend install event occurs between the
lock acquisition and its release — the `lock_guard` is held across the
backend call — so the trace does NOT have its backend events outside the
lock, refuting the claim. -/
theorem registerHook_backend_call_not_outside_lock :
    (HookEngine.RegisterHook true okBackend ⟨[]⟩ 3 5).res = .ok 9 ∧
    (HookEngine.RegisterHook true okBackend ⟨[]⟩ 3 5).trace
      = [Ev.lockAcquire, Ev.backendInstall 3 5, Ev.lockRelease] ∧
    ¬(backendCallsUnlocked 0
        (HookEngine.RegisterHook true okBackend ⟨[]⟩ 3 5).trace = true) := by
  decide

/-- C8 (amended): during `RegisterHook` and `UnregisterHook` the registry
lock (`s_hookMutex`, a `lock_guard`) is acquired once and held across the
backend install/remove call; every backend event in any operation's trace
occurs while the lock is held, and the lock is released only when the
operation — commit or rollback included — is finished. -/
theorem backend_calls_under_lock (apple : Bool) (b : Backend)
    (st : HookState) (t r : Addr) :
    backendCallsLocked 0 (HookEngine.RegisterHook apple b st t r).trace = true ∧
    backendCallsLocked 0 (HookEngine.UnregisterHook apple b st t).trace = true := by
  unfold HookEngine.RegisterHook HookEngine.UnregisterHook
  constructor
  · split
    · rfl
    · split
      · rfl
      · by_cases hc : (Implementation.HookFunction apple b t r).1
        · rw [if_pos hc]; rfl
        · rw [if_neg hc]; rfl
  · split
    · rfl
    · split
      · rfl
      · split
        · rfl
        · rfl

/-! ## C9: the original-implementation out pointer is optional -/

/-- C9: on the supported platform, when the key is untracked and the class
and method resolve, `HookMethod` succeeds whether or not the caller provides
the `originalFn` out pointer; the captured original implementation is written
through the pointer exactly when it is non-null, and the resulting tracking
state does not depend on it. -/
theorem hookMethod_out_pointer_optional (env : ObjcMethodHook.ObjcEnv)
    (st : ObjcMethodHook.ObjcState) (c s : String) (repl : Addr)
    (hnew : (st.hookedMethods.lookup (ObjcMethodHook.methodKey c s)).isSome
      = false)
    (hc : env.hasClass c = true) (hm : env.hasMethod c s = true) :
    (ObjcMethodHook.HookMethod true env st c s repl false).res = .ok () ∧
    (ObjcMethodHook.HookMethod true env st c s repl false).written = none ∧
    (ObjcMethodHook.HookMethod true env st c s repl true).res = .ok () ∧
    (ObjcMethodHook.HookMethod true env st c s repl true).written
      = some (st.impls (c, s)) ∧
    (ObjcMethodHook.HookMethod true env st c s repl false).st.hookedMethods
      = (ObjcMethodHook.HookMethod true env st c s repl true).st.hookedMethods := by
  simp [ObjcMethodHook.HookMethod, hnew, hc, hm]

/-- C9 witness: hooking class `"A"`, selector `"m"` in the concrete state
`stA7` succeeds with a null out pointer (nothing written) and with a non-null
one (original `7` written). -/
theorem hookMethod_out_pointer_optional_witness :
    (ObjcMethodHook.HookMethod true envA stA7 "A" "m" 5 false).res = .ok () ∧
    (ObjcMethodHook.HookMethod true envA stA7 "A" "m" 5 false).written = none ∧
    (ObjcMethodHook.HookMethod true envA stA7 "A" "m" 5 true).res = .ok () ∧
    (ObjcMethodHook.HookMethod true envA stA7 "A" "m" 5 true).written = some 7 := by
  have h := hookMethod_out_pointer_optional envA stA7 "A" "m" 5
    (by decide) (by decide) (by decide)
  exact ⟨h.1, h.2.1, h.2.2.1, h.2.2.2.1.trans (by decide)⟩

/-! ## C10: the two registries are disjoint pieces of state -/

/-- Both static registries of `hooks.cpp` side by side:
`HookEngine::s_hookedFunctions` and `ObjcMethodHook::s_hookedMethods`
(with the Objective-C method table). -/
structure GlobalState where
  funcs : HookState
  objc : ObjcMethodHook.ObjcState

namespace Global

/-- `HookEngine::RegisterHook` acting on the combined state. -/
def registerHook (apple : Bool) (b : Backend) (g : GlobalState)
    (t r : Addr) : GlobalState :=
  { g with funcs := (HookEngine.RegisterHook apple b g.funcs t r).st }

/-- `HookEngine::UnregisterHook` acting on the combined state. -/
def unregisterHook (apple : Bool) (b : Backend) (g : GlobalState)
    (t : Addr) : GlobalState :=
  { g with funcs := (HookEngine.UnregisterHook apple b g.funcs t).st }

/-- `HookEngine::ClearAllHooks` acting on the combined state. -/
def clearAllFunctionHooks (apple : Bool) (b : Backend) (g : GlobalState) :
    GlobalState :=
  { g with funcs := (HookEngine.ClearAllHooks apple b g.funcs).1 }

/-- `HookEngine::Initialize` acting on the combined state. -/
def initEngine (apple : Bool) (b : Backend) (g : GlobalState) : GlobalState :=
  { g with funcs := (HookEngine.InitEngine apple b g.funcs).2.1 }

/-- `ObjcMethodHook::HookMethod` acting on the combined state. -/
def hookMethod (apple : Bool) (env : ObjcMethodHook.ObjcEnv) (g : GlobalState)
    (c s : String) (repl : Addr) (prov : Bool) : GlobalState :=
  { g with objc := (ObjcMethodHook.HookMethod apple env g.objc c s repl prov).st }

/-- `ObjcMethodHook::UnhookMethod` acting on the combined state. -/
def unhookMethod (apple : Bool) (g : GlobalState) (c s : String) :
    GlobalState :=
  { g with objc := (ObjcMethodHook.UnhookMethod apple g.objc c s).st }

/-- `ObjcMethodHook::ClearAllHooks` acting on the combined state. -/
def clearAllMethodHooks (apple : Bool) (g : GlobalState) : GlobalState :=
  { g with objc := ObjcMethodHook.ClearAllHooks apple g.objc }

end Global

/-- C10: the function-hook registry and the method-hook state are disjoint:
every `HookEngine` operation leaves the method-hook side unchanged, and every
`ObjcMethodHook` operation leaves the function-hook map unchanged. -/
theorem registries_disjoint (apple : Bool) (b : Backend)
    (env : ObjcMethodHook.ObjcEnv) (g : GlobalState) (t r : Addr)
    (c s : String) (repl : Addr) (prov : Bool) :
    (Global.registerHook apple b g t r).objc = g.objc ∧
    (Global.unregisterHook apple b g t).objc = g.objc ∧
    (Global.clearAllFunctionHooks apple b g).objc = g.objc ∧
    (Global.initEngine apple b g).objc = g.objc ∧
    (Global.hookMethod apple env g c s repl prov).funcs = g.funcs ∧
    (Global.unhookMethod apple g c s).funcs = g.funcs ∧
    (Global.clearAllMethodHooks apple g).funcs = g.funcs :=
  ⟨rfl, rfl, rfl, rfl, rfl, rfl, rfl⟩

end Hooks
